import Mathlib

/-!
Verification development for the oof-client repository.

The JavaScript sources are shallowly embedded: each Lean definition below
translates one function or state component of `src/OofClient.js`,
`src/Node.js` or `src/Player.js`.  JavaScript runtime failures
(TypeError on a property access of `undefined`/`null`, ReferenceError on
an unbound identifier, SyntaxError from `JSON.parse`) are embedded with
`Except JsErr`.  JavaScript numbers are embedded as rationals, and a
JavaScript object used as a string-keyed map is embedded as an
association list whose entries may hold `null` (a key that was deleted
and then re-assigned `null` is present with value `null`, exactly as in
JavaScript).
-/

namespace Oof

instance exceptDecEq {ε α : Type} [DecidableEq ε] [DecidableEq α] :
    DecidableEq (Except ε α) := fun a b =>
  match a, b with
  | Except.error e, Except.error f =>
    if h : e = f then isTrue (by rw [h]) else
      isFalse (fun hc => h (by cases hc; rfl))
  | Except.error _, Except.ok _ => isFalse (fun hc => Except.noConfusion hc)
  | Except.ok _, Except.error _ => isFalse (fun hc => Except.noConfusion hc)
  | Except.ok x, Except.ok y =>
    if h : x = y then isTrue (by rw [h]) else
      isFalse (fun hc => h (by cases hc; rfl))

/-- Kinds of JavaScript runtime errors raised by the embedded code. -/
inductive JsErr where
  | typeError
  | referenceError
  | syntaxError
deriving DecidableEq, Repr

/-- A track descriptor, as passed to `Player.play` and carried in the
`trackInfo` frame's `d.info` field. -/
structure Track where
  url : String
deriving DecidableEq, Repr

/-- Translation of `region.split("-")` from `simplifyRegion`
(src/OofClient.js line 77), on the character list of the string:
splitting on the single-character separator `"-"`.  On the empty string
JavaScript returns `[""]`, matching the `[[]]` base case. -/
def splitOnDash : List Char → List (List Char)
  | [] => [[]]
  | c :: cs =>
    if c = '-' then [] :: splitOnDash cs
    else (c :: (splitOnDash cs).headD []) :: (splitOnDash cs).tail

/-- Translation of `simplifyRegion` (src/OofClient.js lines 75-78):
`if(region.startsWith("vip-")) region = region.replace("vip-", "")`
(under the guard the first occurrence of `"vip-"` is the four-character
prefix, so the replacement drops it), then `region.split("-")[0]`
(`[0]` of a `split` result, which is never empty, is its head). -/
def simplifyRegion (region : String) : String :=
  let r := region.data
  let r := if r.take 4 = ['v', 'i', 'p', '-'] then r.drop 4 else r
  String.mk ((splitOnDash r).headD [])

/-- Restatement of the specification's wording for `simplifyRegion`:
strip a leading `"vip-"` prefix, then take the substring before the
first `"-"`. -/
def simplifyRegionSpec (region : String) : String :=
  let r := if region.data.take 4 = ['v', 'i', 'p', '-']
           then region.data.drop 4 else region.data
  String.mk (r.takeWhile (fun c => c != '-'))

theorem splitOnDash_headD (l : List Char) :
    (splitOnDash l).headD [] = l.takeWhile (fun c => c != '-') := by
  induction l with
  | nil => rfl
  | cons c cs ih =>
    by_cases h : c = '-'
    · rw [List.takeWhile_cons_of_neg (by simp [h])]
      simp [splitOnDash, h]
    · rw [List.takeWhile_cons_of_pos (by simp [h])]
      simp only [splitOnDash, if_neg h, List.headD_cons]
      rw [ih]

/-- C4: for every region string, `simplifyRegion` strips a leading
`"vip-"` prefix and then takes the substring before the first `"-"`;
in particular `simplifyRegion "vip-us-east" = "us"` and
`simplifyRegion "eu-west" = "eu"`. -/
theorem c4_simplifyRegion :
    (∀ region : String, simplifyRegion region = simplifyRegionSpec region) ∧
    simplifyRegion "vip-us-east" = "us" ∧
    simplifyRegion "eu-west" = "eu" := by
  refine ⟨fun region => ?_, by decide, by decide⟩
  have h := splitOnDash_headD
    (if region.data.take 4 = ['v', 'i', 'p', '-']
     then region.data.drop 4 else region.data)
  simpa [simplifyRegion, simplifyRegionSpec] using congrArg String.mk h

/-- State of one Node object as far as node selection is concerned
(src/Node.js constructor): its `region` tag, whether the websocket
`connection` handler has set `ready`, and the current `stats` snapshot,
flattened to `load` and `cores` (constructor defaults `load = 0`,
`cores = 1`). -/
structure NodeSt where
  region : String
  ready : Bool
  load : Rat
  cores : Rat
deriving DecidableEq, Repr

/-- A JavaScript value that may be either `undefined` or a Node object,
as held by the `nodes` local of `_findOptimalNode`. -/
inductive JsVal where
  | undef
  | node (n : NodeSt)
deriving DecidableEq, Repr

/-- Reading the `connected` property of a Node object
(`node => node.connected`, src/OofClient.js line 65).  The Node class
constructor assigns `address`, `port`, `region`, `guilds`, `ws`,
`master` and `stats`, and its websocket handler assigns `ready`; no
code path ever assigns `connected`, so this property access always
evaluates to `undefined`. -/
def nodeConnectedProp (_n : NodeSt) : JsVal := JsVal.undef

/-- Translation of the module-level constant `REGION_MAP`
(src/OofClient.js lines 2-6): an object with the single key `"us"`.
Indexing with any other key yields `undefined`, embedded as `none`. -/
def REGION_MAP (region : String) : Option (List String) :=
  if region = "us" then some ["us", "brazil"] else none

/-- Truthiness of an optional JavaScript string (`if(region)`,
src/OofClient.js line 67): `undefined` and the empty string are falsy. -/
def jsTruthyStr : Option String → Bool
  | none => false
  | some s => !(s == "")

/-- Translation of
`this.nodes.filter(node => REGION_MAP[node.region].includes(simplifyRegion(region)))`
(src/OofClient.js line 67).  The callback visits nodes left to right;
when `REGION_MAP[node.region]` is `undefined` the `.includes` call
throws a TypeError. -/
def regionalFilter (nodes : List NodeSt) (target : String) :
    Except JsErr (List NodeSt) :=
  match nodes with
  | [] => .ok []
  | n :: rest =>
    match REGION_MAP n.region with
    | none => .error .typeError
    | some affinity =>
      match regionalFilter rest target with
      | .error e => .error e
      | .ok rest' =>
        if simplifyRegion target ∈ affinity then .ok (n :: rest')
        else .ok rest'

/-- Comparator key of the sort on src/OofClient.js line 69:
`100 * (node.stats.load / node.stats.cores)`. -/
def sortKey (n : NodeSt) : Rat := 100 * (n.load / n.cores)

/-- Stable insertion of a node into an already sorted list of nodes
that were enumerated after it: the new node goes after every node with
a strictly smaller key and before the first node with a
greater-or-equal key, so that equal keys keep the original enumeration
order, matching the stable ascending order mandated for
`Array.prototype.sort` with the numeric comparator. -/
def insertNode (n : NodeSt) : List NodeSt → List NodeSt
  | [] => [n]
  | m :: rest =>
    if sortKey m < sortKey n then m :: insertNode n rest
    else n :: m :: rest

/-- Stable ascending sort by `sortKey`, processing the original list
left to right so that key ties keep the original enumeration order. -/
def sortNodesStable : List NodeSt → List NodeSt
  | [] => []
  | n :: rest => insertNode n (sortNodesStable rest)

/-- The Node-object elements of the heterogeneous `nodes` list, in
order. -/
def definedNodes : List JsVal → List NodeSt
  | [] => []
  | JsVal.undef :: rest => definedNodes rest
  | JsVal.node n :: rest => n :: definedNodes rest

/-- The `undefined` elements of the list (ECMA-262 sorts them to the
end of the array). -/
def undefTail : List JsVal → List JsVal
  | [] => []
  | JsVal.undef :: rest => JsVal.undef :: undefTail rest
  | JsVal.node _ :: rest => undefTail rest

/-- Translation of `nodes.sort((a, b) => ...)` (src/OofClient.js line
69) under ECMA-262 SortCompare semantics: the comparator is never
invoked on an `undefined` element — all `undefined` elements are moved
to the end of the array — and the remaining elements are sorted
ascending by the numeric comparator, stably.  In particular a list of
only `undefined` values is returned unchanged and the sort never
throws. -/
def jsSortNodes (vals : List JsVal) : List JsVal :=
  (sortNodesStable (definedNodes vals)).map JsVal.node ++ undefTail vals

/-- Translation of `OofClient._findOptimalNode` (src/OofClient.js
lines 64-72) over the client's node list:
`let nodes = this.nodes.map(node => node.connected)` (a map, not a
filter, producing a list of `undefined` values);
`if(region) regionalNodes = this.nodes.filter(...)` (over all nodes,
regardless of connectivity);
`if(regionalNodes.length) nodes = regionalNodes`;
`nodes = nodes.sort(...)`; `let node = nodes[0]` (indexing an empty
array yields `undefined`); `return node`. -/
def findOptimalNode (ns : List NodeSt) (region : Option String) :
    Except JsErr JsVal :=
  let nodesV : List JsVal := ns.map (fun n => nodeConnectedProp n)
  let rRes : Except JsErr (List NodeSt) :=
    if jsTruthyStr region then regionalFilter ns (region.getD "")
    else .ok []
  match rRes with
  | .error e => .error e
  | .ok regionalNodes =>
    let pool : List JsVal :=
      if regionalNodes.length ≠ 0 then regionalNodes.map JsVal.node
      else nodesV
    .ok ((jsSortNodes pool).headD JsVal.undef)

/-- Translation of the node access in `OofClient.join`
(src/OofClient.js lines 47-49): `let node = this._findOptimalNode(...)`
followed by `node.createPlayer(channel)`; when the selection returned
`undefined`, the `createPlayer` property access throws a TypeError. -/
def joinSelectNode (ns : List NodeSt) (region : Option String) :
    Except JsErr NodeSt :=
  match findOptimalNode ns region with
  | .error e => .error e
  | .ok JsVal.undef => .error .typeError
  | .ok (JsVal.node n) => .ok n

/-- C1 (code bug): with no target region, `_findOptimalNode` operates
on `this.nodes.map(node => node.connected)` — a list of `undefined`
values — instead of the Connected nodes.  The sort passes the
`undefined` elements through without invoking the comparator, so the
selection returns `undefined` rather than any node — in particular
never the claim's least-`load/cores` node — and `join` subsequently
throws a TypeError at `undefined.createPlayer`. -/
theorem c1_selection_code_eval :
    findOptimalNode
      [⟨"us", true, 1, 1⟩, ⟨"us", true, 0, 1⟩] none = .ok JsVal.undef ∧
    findOptimalNode [⟨"us", true, 1, 1⟩] none = .ok JsVal.undef ∧
    joinSelectNode
      [⟨"us", true, 1, 1⟩, ⟨"us", true, 0, 1⟩] none = .error .typeError := by
  decide

/-- C2 (code bug): no `NoAvailableNode` error exists in the code.
With zero Connected candidates, `join` either throws a TypeError
(empty pool, or two or more disconnected nodes and no regional match)
or — when the target region matches a disconnected node's affinity
entry — proceeds to `createPlayer` on a node that is not Connected,
failing in neither case with `NoAvailableNode`. -/
theorem c2_join_code_eval :
    joinSelectNode [] none = .error .typeError ∧
    joinSelectNode
      [⟨"us", false, 0, 1⟩, ⟨"us", false, 0, 1⟩] none = .error .typeError ∧
    joinSelectNode [⟨"us", false, 3, 1⟩] (some "us-east") =
      .ok ⟨"us", false, 3, 1⟩ := by
  decide

/-- C3 counterexample: with target region `"us-east"`, a disconnected
node (`ready = false`, load 0) and a Connected node (`ready = true`,
load 5), both of region `"us"`, selection returns the disconnected
node — the result is not drawn from the regional subset of Connected
nodes. -/
theorem c3_counterexample :
    findOptimalNode
      [⟨"us", false, 0, 1⟩, ⟨"us", true, 5, 1⟩] (some "us-east") =
      .ok (JsVal.node ⟨"us", false, 0, 1⟩) ∧
    (⟨"us", false, 0, 1⟩ : NodeSt).ready = false := by
  constructor
  · have hs : simplifyRegion "us-east" = "us" := by decide
    have hk : ¬ (sortKey ⟨"us", true, 5, 1⟩ < sortKey ⟨"us", false, 0, 1⟩) := by
      norm_num [sortKey]
    simp [findOptimalNode, jsTruthyStr, regionalFilter, REGION_MAP, hs,
      jsSortNodes, definedNodes, undefTail, sortNodesStable, insertNode, hk]
  · rfl

theorem mem_insertNode {x n : NodeSt} {l : List NodeSt}
    (h : x ∈ insertNode n l) : x = n ∨ x ∈ l := by
  induction l with
  | nil => simpa [insertNode] using h
  | cons m rest ih =>
    by_cases hk : sortKey m < sortKey n
    · simp only [insertNode, if_pos hk, List.mem_cons] at h
      rcases h with h | h
      · exact Or.inr (by simp [h])
      · rcases ih h with h | h
        · exact Or.inl h
        · exact Or.inr (by simp [h])
    · simp only [insertNode, if_neg hk, List.mem_cons] at h
      rcases h with h | h | h
      · exact Or.inl h
      · exact Or.inr (by simp [h])
      · exact Or.inr (by simp [h])

theorem mem_sortNodesStable {x : NodeSt} {l : List NodeSt}
    (h : x ∈ sortNodesStable l) : x ∈ l := by
  induction l with
  | nil => exact absurd h (by simp [sortNodesStable])
  | cons n rest ih =>
    simp only [sortNodesStable] at h
    rcases mem_insertNode h with h | h
    · simp [h]
    · exact List.mem_cons_of_mem _ (ih h)

theorem insertNode_ne_nil (n : NodeSt) (l : List NodeSt) :
    insertNode n l ≠ [] := by
  cases l with
  | nil => simp [insertNode]
  | cons m rest =>
    by_cases hk : sortKey m < sortKey n <;> simp [insertNode, hk]

theorem definedNodes_map_node (l : List NodeSt) :
    definedNodes (l.map JsVal.node) = l := by
  induction l with
  | nil => rfl
  | cons n rest ih => simp [definedNodes, ih]

theorem undefTail_map_node (l : List NodeSt) :
    undefTail (l.map JsVal.node) = [] := by
  induction l with
  | nil => rfl
  | cons n rest ih => simp [undefTail, ih]

theorem jsSortNodes_map_node (l : List NodeSt) (h : l ≠ []) :
    ∃ m t, jsSortNodes (l.map JsVal.node) = JsVal.node m :: t ∧
      m ∈ l := by
  have hne : sortNodesStable l ≠ [] := by
    cases l with
    | nil => exact absurd rfl h
    | cons a rest => simpa [sortNodesStable] using insertNode_ne_nil a _
  obtain ⟨m, t, hmt⟩ := List.exists_cons_of_ne_nil hne
  refine ⟨m, t.map JsVal.node, ?_, mem_sortNodesStable (by simp [hmt])⟩
  simp [jsSortNodes, definedNodes_map_node, undefTail_map_node, hmt]

/-- C3 amended: when a target region is given (a non-empty string),
every node's region has a `REGION_MAP` entry (so the filter does not
throw) and the regional filter over all nodes is non-empty, the
selected node is drawn from that regional subset of all nodes —
connectivity state is never consulted. -/
theorem c3_regional_subset (ns : List NodeSt) (target : String)
    (rs : List NodeSt) (h1 : regionalFilter ns target = .ok rs)
    (h2 : rs ≠ []) (h3 : target ≠ "") :
    ∃ n, n ∈ rs ∧ findOptimalNode ns (some target) = .ok (JsVal.node n) := by
  have htruthy : jsTruthyStr (some target) = true := by
    simp [jsTruthyStr, h3]
  obtain ⟨m, t, hsort, hm⟩ := jsSortNodes_map_node rs h2
  refine ⟨m, hm, ?_⟩
  simp [findOptimalNode, htruthy, h1, h2, hsort]

/-- Witness for the amended C3 at a concrete input: one node of region
`"us"`, target region `"us"`. -/
theorem c3_regional_subset_witness :
    ∃ n, n ∈ [(⟨"us", true, 1, 1⟩ : NodeSt)] ∧
      findOptimalNode [⟨"us", true, 1, 1⟩] (some "us") =
        .ok (JsVal.node n) :=
  c3_regional_subset [⟨"us", true, 1, 1⟩] "us" [⟨"us", true, 1, 1⟩]
    (by decide) (by decide) (by decide)

/-- Result of looking a key up in a JavaScript object used as a map:
the key may be absent (`undefined`), present with value `null`, or
present with a Player reference (identified by a numeric id). -/
inductive Bnd where
  | absent
  | nullv
  | pl (pid : Nat)
deriving DecidableEq, Repr

/-- True exactly when the binding holds a live Player reference. -/
def Bnd.isLive : Bnd → Bool
  | Bnd.pl _ => true
  | _ => false

/-- A JavaScript object with string keys and Player-or-null values,
embedded as an association list in key-insertion order. -/
abbrev JsMap : Type := List (String × Option Nat)

/-- Property read `m[g]` on a JavaScript map object: the value at the
first (and, keys being unique, only) matching key. -/
def mapLookup : JsMap → String → Bnd
  | [], _ => Bnd.absent
  | e :: m, g =>
    if e.1 == g then
      match e.2 with
      | none => Bnd.nullv
      | some pid => Bnd.pl pid
    else mapLookup m g

/-- Property assignment `m[g] = v`: overwrites an existing key in
place, otherwise appends the key. -/
def mapAssign : JsMap → String → Option Nat → JsMap
  | [], g, v => [(g, v)]
  | e :: m, g, v =>
    if e.1 == g then (e.1, v) :: m else e :: mapAssign m g v

/-- Translation of the removal idiom `delete m[g]; m[g] = null`
(src/OofClient.js lines 52-53 and src/Node.js lines 108-109): the key
is deleted and then re-created at the end of the key order with value
`null` — it remains present. -/
def deleteThenNull (m : JsMap) (g : String) : JsMap :=
  (m.filter (fun e => !(e.1 == g))) ++ [(g, none)]

/-- Payload (`d`) of an inbound frame, with each field optional since
inbound JSON is untrusted (src/Node.js `onMessage`). -/
structure MsgD where
  guildId : Option String
  channelId : Option String
  info : Option Track
  cores : Option Rat
  load : Option Rat
deriving DecidableEq, Repr

/-- An inbound websocket message: either text that is not valid JSON
(on which `JSON.parse` throws a SyntaxError), or a decoded frame whose
`d` member may be missing. -/
inductive RawMsg where
  | malformed
  | frame (op : String) (d : Option MsgD)
deriving DecidableEq, Repr

/-- Connection-level state of a Node object used by `onMessage`: the
local `guilds` map and the `stats` snapshot (`this.stats = message.d`
replaces it wholesale with the frame's `d` object). -/
structure NodeConn where
  guilds : JsMap
  stats : MsgD
deriving DecidableEq, Repr

/-- The `stats` object assigned in the Node constructor
(src/Node.js lines 62-65): `cores: 1, load: 0`. -/
def initialStats : MsgD :=
  { guildId := none, channelId := none, info := none,
    cores := some 1, load := some 0 }

/-- Translation of `Node.onMessage` (src/Node.js lines 101-123).
`JSON.parse(data)` throws on malformed input; `message.d.guildId`
throws when `d` is missing; when the frame carries truthy `guildId`
and `channelId`, `this.guilds[guildId].onMessage(message)` throws a
TypeError when the entry is absent (`undefined`) or `null`; on op
`"disconnected"` the Player is destroyed and the entry deleted and
re-assigned `null`; frames without the identifiers are dispatched on
`op`: `"sendWS"` forwards to the gateway, `"stats"` replaces the
snapshot, anything else falls through the `switch` silently. -/
def nodeOnMessage (c : NodeConn) (raw : RawMsg) : Except JsErr NodeConn :=
  match raw with
  | RawMsg.malformed => .error .syntaxError
  | RawMsg.frame op d =>
    match d with
    | none => .error .typeError
    | some d =>
      if jsTruthyStr d.guildId && jsTruthyStr d.channelId then
        match mapLookup c.guilds (d.guildId.getD "") with
        | Bnd.pl _ =>
          if op == "disconnected" then
            .ok { c with guilds := deleteThenNull c.guilds (d.guildId.getD "") }
          else .ok c
        | _ => .error .typeError
      else
        if op == "sendWS" then .ok c
        else if op == "stats" then .ok { c with stats := d }
        else .ok c

/-- C6 (code bug): `Node.onMessage` has no error handling.  A frame
referencing a guildId with no entry in the local guild map throws a
TypeError to the caller (`undefined.onMessage`), and a malformed frame
throws a SyntaxError from `JSON.parse`; neither is swallowed. -/
theorem c6_onMessage_code_eval :
    nodeOnMessage ⟨[], initialStats⟩
      (RawMsg.frame "trackEnd"
        (some ⟨some "g1", some "c1", none, none, none⟩)) =
      .error .typeError ∧
    nodeOnMessage ⟨[], initialStats⟩ RawMsg.malformed =
      .error .syntaxError := by
  decide

/-- Per-session inbound events, the cases of the `switch(message.op)`
in `Player.onMessage` (src/Player.js lines 177-216). -/
inductive PMsg where
  | connected
  | disconnected
  | trackInfo (info : Track)
  | trackEnd
  | other (op : String)
deriving DecidableEq, Repr

/-- Protocol state of one Player (src/Player.js): the `ready` flag,
the `nowPlaying` descriptor, and the pending one-shot event listeners
registered by `connect`, `play`, `stop` and `leave` via
`this.once(event, resolve)`.  Each pending promise is identified by a
fresh numeric future id; `resolved` collects the ids whose `resolve()`
has run. -/
structure PState where
  ready : Bool
  nowPlaying : Option Track
  connectWaiters : List Nat
  playWaiters : List Nat
  stopWaiters : List Nat
  leaveWaiters : List Nat
  resolved : List Nat
  nextFut : Nat
deriving DecidableEq, Repr

namespace Player

/-- Translation of `Player.play` (src/Player.js lines 82-94): sends the
`play` frame and registers `this.once("playing", () => resolve())`;
returns the id of the promise created. -/
def play (s : PState) (_track : Track) : Nat × PState :=
  (s.nextFut,
   { s with playWaiters := s.playWaiters ++ [s.nextFut],
            nextFut := s.nextFut + 1 })

/-- Translation of `Player.stop` (src/Player.js lines 100-111): sends
the `stop` frame and registers `this.once("end", () => resolve())`. -/
def stop (s : PState) : Nat × PState :=
  (s.nextFut,
   { s with stopWaiters := s.stopWaiters ++ [s.nextFut],
            nextFut := s.nextFut + 1 })

/-- Translation of `Player.onMessage` (src/Player.js lines 177-216):
`connected` sets `ready = true` and emits `"connected"`;
`disconnected` sets `ready = false` and emits `"disconnected"`;
`trackInfo` stores `message.d.info` in `nowPlaying` and emits
`"playing"`; `trackEnd` sets `nowPlaying = null` and emits `"end"`.
Emitting an event runs and removes every one-shot listener registered
for it, resolving the corresponding promises; an unrecognized op falls
through the `switch` with no effect. -/
def onMessage (s : PState) (m : PMsg) : PState :=
  match m with
  | PMsg.connected =>
    { s with ready := true,
             resolved := s.resolved ++ s.connectWaiters,
             connectWaiters := [] }
  | PMsg.disconnected =>
    { s with ready := false,
             resolved := s.resolved ++ s.leaveWaiters,
             leaveWaiters := [] }
  | PMsg.trackInfo info =>
    { s with nowPlaying := some info,
             resolved := s.resolved ++ s.playWaiters,
             playWaiters := [] }
  | PMsg.trackEnd =>
    { s with nowPlaying := none,
             resolved := s.resolved ++ s.stopWaiters,
             stopWaiters := [] }
  | PMsg.other _ => s

end Player

/-- C7: for a Connected session, calling `play` with the track
`url = "x"` and then delivering a `trackInfo` frame whose `d.info` is
that same track sets `nowPlaying` to the track and resolves the
promise returned by `play`. -/
theorem c7_play_trackInfo (s : PState) (_h : s.ready = true) :
    (Player.onMessage (Player.play s ⟨"x"⟩).2
        (PMsg.trackInfo ⟨"x"⟩)).nowPlaying = some ⟨"x"⟩ ∧
    (Player.play s ⟨"x"⟩).1 ∈
      (Player.onMessage (Player.play s ⟨"x"⟩).2
        (PMsg.trackInfo ⟨"x"⟩)).resolved := by
  refine ⟨rfl, ?_⟩
  simp [Player.play, Player.onMessage]

/-- Witness for C7 at a concrete Connected session. -/
theorem c7_play_trackInfo_witness :
    (Player.onMessage
        (Player.play ⟨true, none, [], [], [], [], [], 0⟩ ⟨"x"⟩).2
        (PMsg.trackInfo ⟨"x"⟩)).nowPlaying = some ⟨"x"⟩ ∧
    (Player.play ⟨true, none, [], [], [], [], [], 0⟩ ⟨"x"⟩).1 ∈
      (Player.onMessage
        (Player.play ⟨true, none, [], [], [], [], [], 0⟩ ⟨"x"⟩).2
        (PMsg.trackInfo ⟨"x"⟩)).resolved :=
  c7_play_trackInfo ⟨true, none, [], [], [], [], [], 0⟩ rfl

/-- C8: for every session, delivering a `trackEnd` frame sets
`nowPlaying` to `null` (absent) and resolves the promise returned by
an earlier `stop` call (registered on the `"end"` event). -/
theorem c8_trackEnd (s : PState) :
    (Player.onMessage s PMsg.trackEnd).nowPlaying = none ∧
    (Player.stop s).1 ∈
      (Player.onMessage (Player.stop s).2 PMsg.trackEnd).resolved := by
  refine ⟨rfl, ?_⟩
  simp [Player.stop, Player.onMessage]

/-!
Combined client and node guild bookkeeping (claim C5).  The system
below composes, over one Registry (OofClient) and one NodeConnection,
the map mutations of `OofClient.join` (src/OofClient.js lines 47-56),
`Node.createPlayer` (src/Node.js lines 130-135) and the `connected` /
`disconnected` frame handling (src/Node.js lines 101-110 together with
`Player.onMessage`).  The single modelled node stands for the node
selection's choice; `joinStart` is guarded to at most one in-flight or
live join per guild, the usage the specification's Registry contract
(§4.4) guarantees.  Promise resolutions are folded into the frame step
that triggers them, reflecting the single-threaded event loop.
-/

/-- Per-player record tracked by the system: `ready` flag and whether
`destroy()` has run. -/
structure PRec where
  ready : Bool
  destroyed : Bool
deriving DecidableEq, Repr

/-- Combined state: the Registry's `guilds` map (`this.guilds` of
OofClient), the node's local `guilds` map (`this.guilds` of Node), the
player objects, the guilds whose `join` promise is still pending, the
guilds for which `join` attached its one-shot `"disconnected"` hook on
the Registry map, and the next fresh player id. -/
structure Sys where
  registry : JsMap
  nodeMap : JsMap
  players : List (Nat × PRec)
  pending : List String
  hooked : List String
  nextPid : Nat
deriving DecidableEq, Repr

/-- Initial state: both maps empty, no players. -/
def initSys : Sys :=
  { registry := [], nodeMap := [], players := [], pending := [],
    hooked := [], nextPid := 0 }

/-- Marks a player ready (the `connected` case of `Player.onMessage`). -/
def setReady (ps : List (Nat × PRec)) (pid : Nat) (b : Bool) :
    List (Nat × PRec) :=
  ps.map (fun e => if e.1 == pid then (e.1, { e.2 with ready := b }) else e)

/-- Marks a player destroyed (`Player.destroy`). -/
def setDestroyed (ps : List (Nat × PRec)) (pid : Nat) :
    List (Nat × PRec) :=
  ps.map (fun e => if e.1 == pid then (e.1, { e.2 with destroyed := true }) else e)

/-- Step for `OofClient.join` up to its `await`:
`node.createPlayer(channel)` assigns a fresh Player into the node's
local map and attaches a one-shot listener for the misspelled
`"disconnect"` event (never emitted, hence not tracked); the
Registry-map assignment happens only when the `await` resolves (see
`stepConnected`).  Guarded to one live-or-in-flight join per guild. -/
def stepJoin (s : Sys) (g : String) : Sys :=
  if (mapLookup s.nodeMap g).isLive || g ∈ s.pending then s
  else
    { s with nodeMap := mapAssign s.nodeMap g (some s.nextPid),
             players := s.players ++ [(s.nextPid, ⟨false, false⟩)],
             pending := s.pending ++ [g],
             nextPid := s.nextPid + 1 }

/-- Step for an inbound `connected` frame for guild `g`:
`Node.onMessage` routes it to `this.guilds[g]`, whose handler sets
`ready = true` and emits `"connected"`, resolving the pending
`connect()` promise; the `join` continuation then stores
`this.guilds[g]` under the Registry's map and attaches the one-shot
`"disconnected"` hook.  When the local entry is not a live Player the
routing throws before any mutation; when no join is pending only the
ready flag changes. -/
def stepConnected (s : Sys) (g : String) : Sys :=
  match mapLookup s.nodeMap g with
  | Bnd.pl pid =>
    if g ∈ s.pending then
      { s with players := setReady s.players pid true,
               registry := mapAssign s.registry g (some pid),
               hooked := s.hooked ++ [g],
               pending := s.pending.filter (fun x => !(x == g)) }
    else { s with players := setReady s.players pid true }
  | _ => s

/-- Step for an inbound `disconnected` frame for guild `g`
(src/Node.js lines 104-110): the frame is routed first, so
`Player.onMessage` sets `ready = false` and emits `"disconnected"`,
firing the Registry's one-shot hook — which deletes the Registry entry
and re-assigns it `null`; then the node destroys the Player, deletes
its own entry and re-assigns it `null`.  When the local entry is not a
live Player the routing throws before any mutation. -/
def stepDisconnected (s : Sys) (g : String) : Sys :=
  match mapLookup s.nodeMap g with
  | Bnd.pl pid =>
    let registry :=
      if g ∈ s.hooked then deleteThenNull s.registry g else s.registry
    { registry := registry,
      nodeMap := deleteThenNull s.nodeMap g,
      players := setDestroyed (setReady s.players pid false) pid,
      pending := s.pending,
      hooked := s.hooked.filter (fun x => !(x == g)),
      nextPid := s.nextPid }
  | _ => s

/-- Events driving the combined system. -/
inductive Ev where
  | joinStart (g : String)
  | connected (g : String)
  | disconnected (g : String)
deriving DecidableEq, Repr

/-- One step of the combined system. -/
def stepEv (s : Sys) (e : Ev) : Sys :=
  match e with
  | Ev.joinStart g => stepJoin s g
  | Ev.connected g => stepConnected s g
  | Ev.disconnected g => stepDisconnected s g

/-- The state reached from the initial state by a list of events; every
reachable state is `run evs` for some event list. -/
def run (evs : List Ev) : Sys := evs.foldl stepEv initSys

/-- Binding produced by assigning an optional value. -/
def optBnd : Option Nat → Bnd
  | none => Bnd.nullv
  | some pid => Bnd.pl pid

theorem mapLookup_assign_self (m : JsMap) (g : String) (v : Option Nat) :
    mapLookup (mapAssign m g v) g = optBnd v := by
  induction m with
  | nil => cases v <;> simp [mapAssign, mapLookup, optBnd]
  | cons e m ih =>
    by_cases h : e.1 = g
    · cases v <;> simp [mapAssign, mapLookup, h, optBnd]
    · have hb : (e.1 == g) = false := by simp [h]
      simp [mapAssign, mapLookup, hb, ih]

theorem mapLookup_assign_ne (m : JsMap) {g g' : String} (v : Option Nat)
    (h : g' ≠ g) : mapLookup (mapAssign m g v) g' = mapLookup m g' := by
  have hgg : (g == g') = false := by simp [Ne.symm h]
  induction m with
  | nil => simp [mapAssign, mapLookup, hgg]
  | cons e m ih =>
    by_cases he : e.1 = g
    · have hne : (e.1 == g') = false := by simp [he, Ne.symm h]
      have hbe : (e.1 == g) = true := by simp [he]
      simp [mapAssign, mapLookup, hbe, hne]
    · have hb : (e.1 == g) = false := by simp [he]
      by_cases he' : e.1 = g'
      · have hb' : (e.1 == g') = true := by simp [he']
        simp [mapAssign, mapLookup, hb, hb']
      · have hb' : (e.1 == g') = false := by simp [he']
        simp [mapAssign, mapLookup, hb, hb', ih]

theorem mapLookup_delNull_self (m : JsMap) (g : String) :
    mapLookup (deleteThenNull m g) g = Bnd.nullv := by
  induction m with
  | nil => simp [deleteThenNull, mapLookup]
  | cons e m ih =>
    by_cases h : e.1 = g
    · have hb : (e.1 == g) = true := by simp [h]
      simpa [deleteThenNull, List.filter_cons, hb] using ih
    · have hb : (e.1 == g) = false := by simp [h]
      simp only [deleteThenNull, List.filter_cons, hb, Bool.not_false,
        if_true, List.cons_append] at ih ⊢
      simpa [mapLookup, hb] using ih

theorem mapLookup_delNull_ne (m : JsMap) {g g' : String} (h : g' ≠ g) :
    mapLookup (deleteThenNull m g) g' = mapLookup m g' := by
  have hgg : (g == g') = false := by simp [Ne.symm h]
  induction m with
  | nil => simp [deleteThenNull, mapLookup, hgg]
  | cons e m ih =>
    by_cases he : e.1 = g
    · have hne : (e.1 == g') = false := by simp [he, Ne.symm h]
      have hbe : (e.1 == g) = true := by simp [he]
      simp only [deleteThenNull, List.filter_cons, hbe, Bool.not_true,
        if_false] at ih ⊢
      simpa [mapLookup, hne] using ih
    · have hb : (e.1 == g) = false := by simp [he]
      by_cases he' : e.1 = g'
      · have hb' : (e.1 == g') = true := by simp [he']
        simp [deleteThenNull, List.filter_cons, hb, mapLookup, hb']
      · have hb' : (e.1 == g') = false := by simp [he']
        simp only [deleteThenNull, List.filter_cons, hb, Bool.not_false,
          if_true, List.cons_append] at ih ⊢
        simpa [mapLookup, hb'] using ih

/-- Invariant relating the two guild maps: a live Registry binding is
mirrored by the same live binding in the node's local map, and the
Registry's one-shot `"disconnected"` hook is attached. -/
def SysInv (s : Sys) : Prop :=
  ∀ g pid, mapLookup s.registry g = Bnd.pl pid →
    mapLookup s.nodeMap g = Bnd.pl pid ∧ g ∈ s.hooked

theorem sysInv_init : SysInv initSys := by
  intro g pid h
  simp [initSys, mapLookup] at h

theorem sysInv_step (s : Sys) (e : Ev) (h : SysInv s) :
    SysInv (stepEv s e) := by
  cases e with
  | joinStart g' =>
    simp only [stepEv, stepJoin]
    by_cases hg : (mapLookup s.nodeMap g').isLive = true ∨ g' ∈ s.pending
    · have : ((mapLookup s.nodeMap g').isLive || decide (g' ∈ s.pending)) = true := by
        rcases hg with hg | hg <;> simp [hg]
      rw [if_pos this]
      exact h
    · push_neg at hg
      have : ((mapLookup s.nodeMap g').isLive || decide (g' ∈ s.pending)) = false := by
        simp [hg.1, hg.2]
      rw [if_neg (by simp [this])]
      intro g pid hreg
      obtain ⟨hnode, hhook⟩ := h g pid hreg
      by_cases hgg : g = g'
      · subst hgg
        rw [hnode] at hg
        simp [Bnd.isLive] at hg
      · exact ⟨by rw [mapLookup_assign_ne _ _ hgg]; exact hnode, hhook⟩
  | connected g' =>
    cases hm : mapLookup s.nodeMap g' with
    | pl pid' =>
      by_cases hp : g' ∈ s.pending
      · simp only [stepEv, stepConnected, hm, if_pos hp]
        intro g pid hreg
        by_cases hgg : g = g'
        · subst hgg
          rw [mapLookup_assign_self] at hreg
          cases hreg
          exact ⟨hm, by simp⟩
        · rw [mapLookup_assign_ne _ _ hgg] at hreg
          obtain ⟨hnode, hhook⟩ := h g pid hreg
          exact ⟨hnode, by simp [hhook]⟩
      · simp only [stepEv, stepConnected, hm, if_neg hp]
        exact h
    | absent => simp only [stepEv, stepConnected, hm]; exact h
    | nullv => simp only [stepEv, stepConnected, hm]; exact h
  | disconnected g' =>
    cases hm : mapLookup s.nodeMap g' with
    | pl pid' =>
      simp only [stepEv, stepDisconnected, hm]
      intro g pid hreg
      by_cases hgg : g = g'
      · subst hgg
        by_cases hh : g ∈ s.hooked
        · rw [if_pos hh] at hreg
          rw [mapLookup_delNull_self] at hreg
          cases hreg
        · rw [if_neg hh] at hreg
          exact absurd (h g pid hreg).2 hh
      · have hreg' : mapLookup s.registry g = Bnd.pl pid := by
          by_cases hh : g' ∈ s.hooked
          · rw [if_pos hh] at hreg
            rwa [mapLookup_delNull_ne _ hgg] at hreg
          · rwa [if_neg hh] at hreg
        obtain ⟨hnode, hhook⟩ := h g pid hreg'
        refine ⟨by rw [mapLookup_delNull_ne _ hgg]; exact hnode, ?_⟩
        simp only [List.mem_filter]
        exact ⟨hhook, by simp [hgg]⟩
    | absent => simp only [stepEv, stepDisconnected, hm]; exact h
    | nullv => simp only [stepEv, stepDisconnected, hm]; exact h

theorem sysInv_foldl (evs : List Ev) (s : Sys) (h : SysInv s) :
    SysInv (evs.foldl stepEv s) := by
  induction evs generalizing s with
  | nil => exact h
  | cons e evs ih => exact ih _ (sysInv_step s e h)

theorem sysInv_run (evs : List Ev) : SysInv (run evs) :=
  sysInv_foldl evs initSys sysInv_init

/-- C5 counterexample: in the reachable state after `join` has created
the Player on the node (`run [Ev.joinStart "g1"]`) but before the
`connected` frame resolves the `join` promise, guild `"g1"` is live in
the node's local map while absent from the Registry's map — the
claimed iff fails. -/
theorem c5_counterexample :
    ¬ (((mapLookup (run [Ev.joinStart "g1"]).registry "g1").isLive = true) ↔
       ((mapLookup (run [Ev.joinStart "g1"]).nodeMap "g1").isLive = true)) := by
  decide

/-- C5 amended: in every reachable state, a guildId live in the
Registry's map is live in the node's local map with the identical
Player (same id), and delivering the terminal `disconnected` frame
then sets both entries to `null` in the same handler run (the keys
remain present, mapped to `null`); before the `join` promise resolves,
however, the Player is registered only in the node's map. -/
theorem c5_registry_node_sync (evs : List Ev) (g : String) (pid : Nat)
    (h : mapLookup (run evs).registry g = Bnd.pl pid) :
    mapLookup (run evs).nodeMap g = Bnd.pl pid ∧
    mapLookup (stepDisconnected (run evs) g).registry g = Bnd.nullv ∧
    mapLookup (stepDisconnected (run evs) g).nodeMap g = Bnd.nullv := by
  obtain ⟨hnode, hhook⟩ := sysInv_run evs g pid h
  refine ⟨hnode, ?_, ?_⟩ <;>
    simp [stepDisconnected, hnode, hhook, mapLookup_delNull_self]

/-- Witness for the amended C5 after a completed join for guild
`"a"`. -/
theorem c5_registry_node_sync_witness :
    mapLookup (run [Ev.joinStart "a", Ev.connected "a"]).nodeMap "a" =
      Bnd.pl 0 ∧
    mapLookup (stepDisconnected
      (run [Ev.joinStart "a", Ev.connected "a"]) "a").registry "a" =
      Bnd.nullv ∧
    mapLookup (stepDisconnected
      (run [Ev.joinStart "a", Ev.connected "a"]) "a").nodeMap "a" =
      Bnd.nullv :=
  c5_registry_node_sync [Ev.joinStart "a", Ev.connected "a"] "a" 0
    (by decide)

/-- Observable own-property state of the destroy-enabled Player
variant (src/Player.js lines 226-475): each JavaScript own property is
embedded as an `Option`, `none` when the property has been deleted.
Property values other than `nowPlaying` and the flags are abstracted
to ids. -/
structure PlayerObj where
  channel : Option Nat
  node : Option Nat
  ready : Option Bool
  nowPlaying : Option (Option Track)
  destroyed : Option Bool
  eventsTbl : Option (List Nat)
deriving DecidableEq, Repr

namespace PlayerObj

/-- Translation of `Player.destroy` (src/Player.js lines 421-426):
`for(let key of Object.keys(this)) delete this[key]` removes every own
property — including the EventEmitter listener table — and then
`this.destroyed = true` re-creates the single property `destroyed`. -/
def destroy (_p : PlayerObj) : PlayerObj :=
  { channel := none, node := none, ready := none, nowPlaying := none,
    destroyed := some true, eventsTbl := none }

/-- Translation of the command path `this.node.send(...)` used by every
command (`send`, src/Player.js lines 281-286): when the `node` property
has been deleted the access throws a TypeError. -/
def sendCommand (p : PlayerObj) (_op : String) : Except JsErr PlayerObj :=
  match p.node with
  | none => .error .typeError
  | some _ => .ok p

end PlayerObj

/-- C9: `destroy` is idempotent — a second call yields the identical
observable state — and after it every session field is cleared,
`destroyed = true`, and no further command is callable (the command
path throws a TypeError). -/
theorem c9_destroy_idempotent (p : PlayerObj) :
    PlayerObj.destroy (PlayerObj.destroy p) = PlayerObj.destroy p ∧
    (PlayerObj.destroy p).destroyed = some true ∧
    (PlayerObj.destroy p).channel = none ∧
    (PlayerObj.destroy p).node = none ∧
    (PlayerObj.destroy p).ready = none ∧
    (PlayerObj.destroy p).nowPlaying = none ∧
    (PlayerObj.destroy p).eventsTbl = none ∧
    PlayerObj.sendCommand (PlayerObj.destroy p) "play" =
      .error .typeError :=
  ⟨rfl, rfl, rfl, rfl, rfl, rfl, rfl, rfl⟩

/-- Identifiers bound at module scope of src/OofClient.js: the
`require`d `Node`, the constant `REGION_MAP`, the class `OofClient`
and the hoisted function `simplifyRegion`.  The identifier `Nodes`
used on line 25 is not among them. -/
def oofClientModuleScope : List String :=
  ["Node", "REGION_MAP", "OofClient", "simplifyRegion"]

/-- Evaluation of the callback `n => new Nodes(n, this)`
(src/OofClient.js line 25): resolving the free identifier `Nodes`
against the module scope fails, throwing a ReferenceError. -/
def evalNewNodes : Except JsErr Unit :=
  if "Nodes" ∈ oofClientModuleScope then .ok () else .error .referenceError

/-- The `nodes` constructor argument: absent (`undefined`), `null`, or
an array (whose element values are irrelevant, since the mapping
callback throws before using them). -/
inductive NodesArg where
  | absent
  | null
  | arr (l : List Unit)
deriving DecidableEq, Repr

/-- Mapping the callback over the array, left to right, as
`nodes.map(n => new Nodes(n, this))` does. -/
def ctorMapNodes : List Unit → Except JsErr (List Unit)
  | [] => .ok []
  | _ :: rest =>
    match evalNewNodes with
    | .error e => .error e
    | .ok u =>
      match ctorMapNodes rest with
      | .error e => .error e
      | .ok us => .ok (u :: us)

/-- Translation of `this.nodes = nodes && nodes.map(...) || []`
(src/OofClient.js line 25): a falsy `nodes` (`undefined` or `null`)
short-circuits `&&` and `|| []` yields the empty pool; an array is
truthy (even when empty), so `map` runs — throwing on the first
element, if any — and its (possibly empty, still truthy) result is
kept by `||`. -/
def oofClientCtorNodes : NodesArg → Except JsErr (List Unit)
  | NodesArg.absent => .ok []
  | NodesArg.null => .ok []
  | NodesArg.arr l => ctorMapNodes l

/-- C10: constructing an OofClient with a non-empty `nodes` list throws
a ReferenceError (the mapping callback references the undefined
identifier `Nodes`), so a successfully constructed client has an empty
node pool; construction succeeds when `nodes` is absent, `null`, or an
empty array. -/
theorem c10_ctor_nodes (l : List Unit) :
    (l ≠ [] →
      oofClientCtorNodes (NodesArg.arr l) = .error .referenceError) ∧
    oofClientCtorNodes NodesArg.absent = .ok [] ∧
    oofClientCtorNodes NodesArg.null = .ok [] ∧
    oofClientCtorNodes (NodesArg.arr []) = .ok [] := by
  refine ⟨?_, rfl, rfl, rfl⟩
  intro h
  cases l with
  | nil => exact absurd rfl h
  | cons a rest => rfl

/-- Witness for C10 at the singleton nodes list. -/
theorem c10_ctor_nodes_witness :
    oofClientCtorNodes (NodesArg.arr [()]) = .error .referenceError :=
  (c10_ctor_nodes [()]).1 (by decide)

end Oof
